import Mathlib

/-!
Shallow embedding of the sktm job/patch reconciliation engine, checked
against its natural-language specification.

Sources embedded here:
  * src/sktm/db.py        (class SktDb: the persistent store)
  * src/sktm/__init__.py  (enum tresult; class watcher: filter_patchsets,
                           check_pending)
  * src/sktm/scheduler.py (class Direct: the admission-controlled local
                           scheduler, method __update)

The SQLite database is modelled as lists of rows, one list per table of
SktDb.__createdb (db.py lines 40-92), with row types carrying exactly the
columns of the CREATE TABLE statements.  An INTEGER PRIMARY KEY column is
assigned, as SQLite does for a fresh insert, one more than the largest id
in the table.  Python exceptions raised by the embedded code paths
(NameError for a name that is not in scope, sqlite3.OperationalError for a
query naming a column the table does not have, ValueError for
sktm.tresult() on an out-of-range code) are modelled with Except.
-/

/-- Exceptions the embedded Python paths can raise.  programmingError is
sqlite3.ProgrammingError: a parameter sequence whose length differs from
the number of placeholders of the statement. -/
inductive PyError
  | nameError
  | operationalError
  | valueError
  | programmingError
deriving DecidableEq

/-- sktm.__init__ lines 28-35: enum tresult, the test-result severity
ordering.  SUCCESS has the lowest ordinal. -/
inductive Tresult
  | SUCCESS
  | MERGE_FAILURE
  | BUILD_FAILURE
  | PUBLISH_FAILURE
  | TEST_FAILURE
  | BASELINE_FAILURE
deriving DecidableEq

/-- The IntEnum value of a tresult (sktm.__init__ lines 30-35). -/
def Tresult.val : Tresult → Nat
  | .SUCCESS => 0
  | .MERGE_FAILURE => 1
  | .BUILD_FAILURE => 2
  | .PUBLISH_FAILURE => 3
  | .TEST_FAILURE => 4
  | .BASELINE_FAILURE => 5

/-- Python sktm.tresult(n): the enum member with value n, or a ValueError
for any other integer. -/
def Tresult.ofNat? : Nat → Option Tresult
  | 0 => some .SUCCESS
  | 1 => some .MERGE_FAILURE
  | 2 => some .BUILD_FAILURE
  | 3 => some .PUBLISH_FAILURE
  | 4 => some .TEST_FAILURE
  | 5 => some .BASELINE_FAILURE
  | _ => none

/-- db.py lines 43-46: table baserepo(id INTEGER PRIMARY KEY, url TEXT UNIQUE). -/
structure BaserepoRow where
  id : Nat
  url : String
deriving DecidableEq

/-- db.py lines 48-52: table patchsource(id, baseurl, project_id). -/
structure PatchsourceRow where
  id : Nat
  baseurl : String
  project_id : Nat
deriving DecidableEq

/-- db.py lines 54-61: table patch(id, name, url, date, patchsource_id).
The patch id is assigned by the tracker, not by the database. -/
structure PatchRow where
  id : Nat
  name : String
  url : String
  date : String
  patchsource_id : Nat
deriving DecidableEq

/-- db.py lines 63-70: table pendingpatches(id INTEGER PRIMARY KEY,
patch_id INTEGER UNIQUE, timestamp INTEGER, pendingjob_id INTEGER).
`pendingjob_id` has no NOT NULL constraint, hence the Option. -/
structure PendingPatchRow where
  id : Nat
  patch_id : Nat
  timestamp : Int
  pendingjob_id : Option Nat
deriving DecidableEq

/-- db.py lines 72-76: table pendingjobs(id, job_name, build_id). -/
structure PendingJobRow where
  id : Nat
  job_name : String
  build_id : Nat
deriving DecidableEq

/-- db.py lines 78-82: table testrun(id, result_id, build_id). -/
structure TestrunRow where
  id : Nat
  result_id : Nat
  build_id : Nat
deriving DecidableEq

/-- db.py lines 84-92: table baseline(id, baserepo_id, commitid,
commitdate, testrun_id).  Commit dates are modelled as integers (epoch
timestamps), matching the ordering ORDER BY commitdate relies on. -/
structure BaselineRow where
  id : Nat
  baserepo_id : Nat
  commitid : String
  commitdate : Int
  testrun_id : Nat
deriving DecidableEq

/-- The whole SQLite database of SktDb, one list of rows per table; list
order is insertion order, which is the order an unordered SELECT returns. -/
structure SktDbState where
  baserepo : List BaserepoRow
  patchsource : List PatchsourceRow
  patch : List PatchRow
  pendingpatches : List PendingPatchRow
  pendingjobs : List PendingJobRow
  testrun : List TestrunRow
  baseline : List BaselineRow
deriving DecidableEq

/-- Largest id in a list of ids (0 for the empty table). -/
def maxId (ids : List Nat) : Nat := ids.foldl max 0

/-- The rowid SQLite assigns to the next INSERT into baserepo. -/
def freshBaserepoId (s : SktDbState) : Nat := maxId (s.baserepo.map (·.id)) + 1

/-- The rowid SQLite assigns to the next INSERT into patchsource. -/
def freshSourceId (s : SktDbState) : Nat := maxId (s.patchsource.map (·.id)) + 1

/-- The rowid SQLite assigns to the next INSERT into testrun. -/
def freshTestrunId (s : SktDbState) : Nat := maxId (s.testrun.map (·.id)) + 1

/-- The rowid SQLite assigns to the next INSERT into baseline. -/
def freshBaselineId (s : SktDbState) : Nat := maxId (s.baseline.map (·.id)) + 1

/-- SktDb.__create_repoid (db.py lines 98-109): INSERT OR IGNORE a baserepo
row for the URL and return cur.lastrowid.  Its only caller runs it right
after a failed lookup, so the insert is never ignored. -/
def create_repoid (s : SktDbState) (baserepo : String) : Nat × SktDbState :=
  let rid := freshBaserepoId s
  (rid, { s with baserepo := s.baserepo ++ [⟨rid, baserepo⟩] })

/-- SktDb.__get_repoid (db.py lines 111-127): SELECT id FROM baserepo WHERE
url = ?, creating the row lazily when the URL is unknown. -/
def get_repoid (s : SktDbState) (baserepo : String) : Nat × SktDbState :=
  match s.baserepo.find? (fun r => r.url == baserepo) with
  | some r => (r.id, s)
  | none => create_repoid s baserepo

/-- SktDb.__create_sourceid (db.py lines 129-142). -/
def create_sourceid (s : SktDbState) (baseurl : String) (project_id : Nat) :
    Nat × SktDbState :=
  let sid := freshSourceId s
  (sid, { s with patchsource := s.patchsource ++ [⟨sid, baseurl, project_id⟩] })

/-- SktDb.__get_sourceid (db.py lines 144-162): lookup by (baseurl,
project_id), creating the patchsource row lazily. -/
def get_sourceid (s : SktDbState) (baseurl : String) (project_id : Nat) :
    Nat × SktDbState :=
  match s.patchsource.find? (fun r => r.baseurl == baseurl && r.project_id == project_id) with
  | some r => (r.id, s)
  | none => create_sourceid s baseurl project_id

/-- SktDb.__commit_testrun (db.py lines 506-520): INSERT INTO
testrun(result_id, build_id) storing result.value, returning lastrowid. -/
def commit_testrun (s : SktDbState) (result : Tresult) (buildid : Nat) :
    Nat × SktDbState :=
  let tid := freshTestrunId s
  (tid, { s with testrun := s.testrun ++ [⟨tid, result.val, buildid⟩] })

/-- One step of the maximum selection behind ORDER BY date DESC LIMIT 1:
keep the row seen so far unless the next row's key is strictly greater. -/
def selStep {α : Type} (f : α → Int) (acc : Option α) (r : α) : Option α :=
  match acc with
  | none => some r
  | some m => if f r > f m then some r else some m

/-- ORDER BY date DESC LIMIT 1 over a result set: some row whose date is
maximal, none for an empty set.  SQLite leaves the choice among equal dates
open; this model keeps the first row with the maximal date. -/
def selectMaxBy {α : Type} (f : α → Int) (rows : List α) : Option α :=
  rows.foldl (selStep f) none

/-- The result set of the join in SktDb.__get_baselineresult (db.py lines
366-371): baseline × testrun rows with the given commit hash and repo id,
joined on baseline.testrun_id = testrun.id, as (commitdate, result_id)
pairs.  testrun.id is a primary key, so the first matching testrun row is
the join partner. -/
def baseline_result_rows (bl : List BaselineRow) (tr : List TestrunRow)
    (rid : Nat) (commithash : String) : List (Int × Nat) :=
  bl.filterMap (fun b =>
    if b.commitid == commithash && b.baserepo_id == rid then
      (tr.find? (fun t => t.id == b.testrun_id)).map (fun t => (b.commitdate, t.result_id))
    else none)

/-- SktDb.__get_baselineresult (db.py lines 352-377): the result of the
most recent (by commitdate) baseline test run for (repo URL, commit hash),
as sktm.tresult(result_id) — a ValueError for a stored code outside 0..5 —
or none when no joined row exists. -/
def baselineresult_value (rows : List (Int × Nat)) :
    Except PyError (Option Tresult) :=
  match selectMaxBy (·.1) rows with
  | none => .ok none
  | some r =>
    match Tresult.ofNat? r.2 with
    | none => .error .valueError
    | some t => .ok (some t)

/-- SktDb.__get_baselineresult (db.py lines 352-377): see
baselineresult_value for the fetched value; the internal __get_repoid call
may create the baserepo row, hence the returned state. -/
def get_baselineresult (s : SktDbState) (baserepo commithash : String) :
    Except PyError (Option Tresult) × SktDbState :=
  let rid := (get_repoid s baserepo).1
  let s1 := (get_repoid s baserepo).2
  (baselineresult_value (baseline_result_rows s1.baseline s1.testrun rid commithash), s1)

/-- The result set of the join in SktDb.get_stable (db.py lines 391-396):
(commitdate, commitid) of baseline rows for the repo whose joined test run
has result_id = 0 (SUCCESS). -/
def stable_rows (bl : List BaselineRow) (tr : List TestrunRow) (rid : Nat) :
    List (Int × String) :=
  bl.filterMap (fun b =>
    if b.baserepo_id == rid then
      (tr.find? (fun t => t.id == b.testrun_id)).bind (fun t =>
        if t.result_id == 0 then some (b.commitdate, b.commitid) else none)
    else none)

/-- SktDb.get_stable (db.py lines 379-403): the commit id with the most
recent commitdate among baseline rows of the repo whose test run succeeded,
or none.  The internal __get_repoid call creates the baserepo row when the
URL is unknown, so the state is returned alongside. -/
def get_stable (s : SktDbState) (baserepo : String) :
    Option String × SktDbState :=
  let rid := (get_repoid s baserepo).1
  let s1 := (get_repoid s baserepo).2
  ((selectMaxBy (·.1) (stable_rows s1.baseline s1.testrun rid)).map (·.2), s1)

/-- SktDb.update_baseline (db.py lines 461-495): resolve the repo id,
always record a testrun row, then create the baseline row when the commit
has no previous result, update its testrun_id when the new result's ordinal
is >= the previous one (result >= prev_res on IntEnum values), and
otherwise leave the baseline table alone.  The UPDATE's WHERE clause is
commitid = ? AND baserepo_id = ?, so every row of the pair is rewritten. -/
def update_baseline (s : SktDbState) (baserepo commithash : String)
    (commitdate : Int) (result : Tresult) (build_id : Nat) :
    Except PyError SktDbState :=
  let rid := (get_repoid s baserepo).1
  let s1 := (get_repoid s baserepo).2
  let testrun_id := (commit_testrun s1 result build_id).1
  let s2 := (commit_testrun s1 result build_id).2
  let s3 := (get_baselineresult s2 baserepo commithash).2
  match (get_baselineresult s2 baserepo commithash).1 with
  | .error e => .error e
  | .ok none =>
    .ok { s3 with baseline := s3.baseline ++
          [⟨freshBaselineId s3, rid, commithash, commitdate, testrun_id⟩] }
  | .ok (some prev_res) =>
    if prev_res.val ≤ result.val then
      .ok { s3 with baseline := s3.baseline.map (fun b =>
            if b.commitid == commithash && b.baserepo_id == rid then
              { b with testrun_id := testrun_id }
            else b) }
    else .ok s3

/-- Column names of the pendingpatches table as SktDb.__createdb creates it
(db.py lines 63-70). -/
def pendingpatchesColumns : List String :=
  ["id", "patch_id", "timestamp", "pendingjob_id"]

/-- Column names the WHERE clause of the SELECT in
SktDb.get_expired_pending_patches references (db.py lines 315-318). -/
def expiredPendingQueryColumns : List String :=
  ["patchsource_id", "timestamp"]

/-- SktDb.get_expired_pending_patches (db.py lines 294-326).  The SELECT
filters on pendingpatches.patchsource_id, a column the pendingpatches
schema does not define, so sqlite3 raises OperationalError ("no such
column") for every call; the guard below records that check against the
schema.  Were the column present, the query would return the `id` column
(the pendingpatches rowid, not patch_id) of rows with timestamp
strictly below now - exptime.  The __get_sourceid call runs first and may
create a patchsource row, so the state is returned alongside. -/
def get_expired_pending_patches (s : SktDbState) (baseurl : String)
    (project_id : Nat) (now exptime : Int) :
    Except PyError (List Nat) × SktDbState :=
  let s1 := (get_sourceid s baseurl project_id).2
  let tstamp := now - exptime
  if expiredPendingQueryColumns.all (fun c => pendingpatchesColumns.contains c) then
    (.ok ((s1.pendingpatches.filter (fun p => p.timestamp < tstamp)).map (·.id)), s1)
  else
    (.error .operationalError, s1)

/-- SktDb.set_patchset_pending (db.py lines 429-445).  The body's first
statement is `sourceid = self.__get_sourceid(baseurl, project_id)`, but the
method's only parameter is `series_data`: neither `baseurl` nor
`project_id` is bound in the function's scope (nor at module scope), so
every call raises NameError before the INSERT OR REPLACE statement runs.
(Its caller, check_patchwork in sktm/__init__.py line 317, even passes
three arguments to this one-parameter method.) -/
def set_patchset_pending (s : SktDbState) (series_data : List (Nat × String)) :
    Except PyError SktDbState :=
  .error .nameError

/-- The statement the loop body of set_patchset_pending would run per
(patch_id, patch_date) entry (db.py lines 441-444): INSERT OR REPLACE INTO
pendingpatches(patch_id, timestamp) VALUES(?, ?).  Under the UNIQUE
constraint on patch_id (schema, db.py line 65), SQLite deletes any
conflicting row and inserts the new one; pendingjob_id is not in the column
list, so the fresh row stores NULL. -/
def pendingpatches_insert_or_replace (s : SktDbState) (patch_id : Nat)
    (tstamp : Int) : SktDbState :=
  let kept := s.pendingpatches.filter (fun p => p.patch_id != patch_id)
  let rowid := maxId (kept.map (·.id)) + 1
  { s with pendingpatches := kept ++ [⟨rowid, patch_id, tstamp, none⟩] }

/-- SktDb.__unset_patchset_pending (db.py lines 447-459).  The executemany
call's parameter list is `[patches]`, but no name `patches` is bound in the
function (its parameter is `patch_id_list`), so every call raises NameError
before the DELETE statement runs. -/
def unset_patchset_pending (s : SktDbState) (patch_id_list : List Nat) :
    Except PyError SktDbState :=
  .error .nameError

/-- SktDb.commit_tested (db.py lines 497-504): delegates to
__unset_patchset_pending. -/
def commit_tested (s : SktDbState) (patches : List Nat) :
    Except PyError SktDbState :=
  unset_patchset_pending s patches

/-- SktDb.get_pending_jobs (db.py lines 177-180): SELECT * FROM pendingjobs. -/
def get_pending_jobs (s : SktDbState) : List PendingJobRow := s.pendingjobs

/-- SktDb.get_patches_for_job (db.py lines 197-208): pendingpatches rows of
one pending job.  The SQL parameter is the string str(pendingjob_id)
itself, not a tuple (line 206), and sqlite3 treats a string as a sequence
of one-character bindings: for a one-digit id the single character binds
the single placeholder (and SQLite's numeric affinity makes '7' match the
INTEGER column), but for any id >= 10 the sequence has too many members
and sqlite3 raises ProgrammingError before the SELECT runs. -/
def get_patches_for_job (s : SktDbState) (pendingjob_id : Nat) :
    Except PyError (List PendingPatchRow) :=
  if pendingjob_id < 10 then
    .ok (s.pendingpatches.filter (fun p => p.pendingjob_id == some pendingjob_id))
  else .error .programmingError

/-- SktDb.remove_pending_job (db.py lines 182-195): DELETE the pendingjobs
row and every pendingpatches row associated with it.  Both DELETE
statements pass str(pendingjob_id) as the parameter sequence (lines 189 and
193), so as in get_patches_for_job an id >= 10 raises ProgrammingError at
the first execute, before anything is deleted. -/
def remove_pending_job (s : SktDbState) (pendingjob_id : Nat) :
    Except PyError SktDbState :=
  if pendingjob_id < 10 then
    .ok { s with
      pendingjobs := s.pendingjobs.filter (fun j => j.id != pendingjob_id),
      pendingpatches :=
        s.pendingpatches.filter (fun p => p.pendingjob_id != some pendingjob_id) }
  else .error .programmingError

/-- The Jenkins-side interface check_pending consults (watcher.jk in
sktm/__init__.py): a pure oracle for the remote executor's answers, indexed
by job name and build id. -/
structure Executor where
  is_build_complete : String → Nat → Bool
  get_build_status : String → Nat → String
  get_result : String → Nat → Tresult
  get_base_hash : String → Nat → String
  get_base_commitdate : String → Nat → Int

/-- The loop body of watcher.check_pending (sktm/__init__.py lines
347-401), iterating over the snapshot get_pending_jobs returned.  The first
component records, for reasoning only, the ids of the jobs the loop body
examined, in order; it does not influence the computation.  Per job:
  * executor says incomplete -> continue with the next job;
  * build status ABORTED -> remove_pending_job (which raises
    ProgrammingError for an id >= 10, ending the pass), then continue;
  * otherwise get_patches_for_job (again ProgrammingError for id >= 10);
    no associated pending patches (baseline job) -> update_baseline,
    remove_pending_job, then `return` (line 390) — the pass ends here;
  * associated patches (patchwork job) -> commit_tested, which raises
    NameError (see unset_patchset_pending), ending the pass. -/
def check_pending_loop (jk : Executor) (baserepo : String) :
    SktDbState → List PendingJobRow → List Nat × Except PyError SktDbState
  | s, [] => ([], .ok s)
  | s, j :: rest =>
    if jk.is_build_complete j.job_name j.build_id then
      if jk.get_build_status j.job_name j.build_id = "ABORTED" then
        match remove_pending_job s j.id with
        | .error e => ([j.id], .error e)
        | .ok s1 =>
          let r := check_pending_loop jk baserepo s1 rest
          (j.id :: r.1, r.2)
      else
        match get_patches_for_job s j.id with
        | .error e => ([j.id], .error e)
        | .ok pending_patches =>
          if pending_patches.isEmpty then
            match update_baseline s baserepo
                (jk.get_base_hash j.job_name j.build_id)
                (jk.get_base_commitdate j.job_name j.build_id)
                (jk.get_result j.job_name j.build_id) j.build_id with
            | .error e => ([j.id], .error e)
            | .ok s1 =>
              match remove_pending_job s1 j.id with
              | .error e => ([j.id], .error e)
              | .ok s2 => ([j.id], .ok s2)
          else
            match commit_tested s (pending_patches.map (·.patch_id)) with
            | .error e => ([j.id], .error e)
            | .ok s1 =>
              let r := check_pending_loop jk baserepo s1 rest
              (j.id :: r.1, r.2)
    else
      let r := check_pending_loop jk baserepo s rest
      (j.id :: r.1, r.2)

/-- watcher.check_pending (sktm/__init__.py lines 338-401): one
reconciliation pass over the stored pending jobs.  The early exit for an
empty listing (line 343) behaves like the loop over an empty list. -/
def check_pending (jk : Executor) (baserepo : String) (s : SktDbState) :
    List Nat × Except PyError SktDbState :=
  check_pending_loop jk baserepo s (get_pending_jobs s)

/-- Which jobs one check_pending pass examines: the listing up to and
including the first job the executor reports complete and not aborted —
that job ends the pass (baseline jobs by the early return, patchwork jobs
by the NameError out of commit_tested) — or, before that, the first
complete aborted job whose id has two or more decimal digits, where
remove_pending_job's str-parameter binding raises ProgrammingError.  Only
still-running jobs and aborted jobs with one-digit ids are passed over. -/
def reconcile_trace (jk : Executor) : List PendingJobRow → List Nat
  | [] => []
  | j :: rest =>
    if jk.is_build_complete j.job_name j.build_id then
      if jk.get_build_status j.job_name j.build_id = "ABORTED" then
        if j.id < 10 then j.id :: reconcile_trace jk rest
        else [j.id]
      else [j.id]
    else j.id :: reconcile_trace jk rest

/-- Errors watcher.filter_patchsets raises (sktm/__init__.py lines
227-234), one per raise site. -/
inductive FilterError
  | commandFailed
  | terminatedBySignal (sig : Int)
  | invalidStatus (status : Int)
deriving DecidableEq

/-- watcher.filter_patchsets (sktm/__init__.py lines 196-238) with a
configured filter program, over the series list; `run` gives the filter
subprocess's exit status for a series (negative for signal termination, as
subprocess.call reports it).  Exit 0 appends the series to the ready list,
1 to the dropped list, and 127, negative, or any other status raises,
abandoning both lists. -/
def filter_patchsets {α : Type} (run : α → Int) :
    List α → Except FilterError (List α × List α)
  | [] => .ok ([], [])
  | x :: rest =>
    if run x = 0 then
      (filter_patchsets run rest).map (fun rd => (x :: rd.1, rd.2))
    else if run x = 1 then
      (filter_patchsets run rest).map (fun rd => (rd.1, x :: rd.2))
    else if run x = 127 then
      .error .commandFailed
    else if run x < 0 then
      .error (.terminatedBySignal (-(run x)))
    else
      .error (.invalidStatus (run x))

/-- One local run of the Direct scheduler (scheduler.py class DirectRun),
as Direct.__update observes it: the __update loop calls run.is_active()
and run.is_complete() (lines 219 and 224) and run.start() (line 225, which
sets run.started).  DirectRun defines no is_active or is_complete, so the
two flags here stand for whatever those calls would observe. -/
structure DirectRun where
  started : Bool
  is_active : Bool
  is_complete : Bool
deriving DecidableEq

/-- Direct.__update lines 215-220: parallel_run_num minus the number of
runs the run map reports active, computed once before the fill-up loop. -/
def update_capacity (parallel_run_num : Int) (run_map : List DirectRun) : Int :=
  parallel_run_num - (run_map.filter (·.is_active)).length

/-- One pass of the body of the while loop in Direct.__update (lines
222-225): start() every run that is not complete.  Nothing in the body
assigns parallel_run_num. -/
def update_fill_body (run_map : List DirectRun) : List DirectRun :=
  run_map.map (fun r => if r.is_complete then r else { r with started := true })

/-- n iterations of the while loop of Direct.__update over its state: the
loop counter parallel_run_num (the guard checks it > 0) and the run map. -/
def update_fill_iter : Nat → Int × List DirectRun → Int × List DirectRun
  | 0, st => st
  | n + 1, (cap, runs) => update_fill_iter n (cap, update_fill_body runs)

/-- Every baseline row's testrun_id resolves to a testrun row — true of
every state the SktDb API can build, since baseline rows are only created
by update_baseline pointing at the testrun it just inserted. -/
def baselineResolved (s : SktDbState) : Bool :=
  s.baseline.all (fun b => (s.testrun.find? (fun t => t.id == b.testrun_id)).isSome)

/-- Every stored result code is a tresult value — true of every reachable
state, since __commit_testrun stores result.value. -/
def resultsValid (s : SktDbState) : Bool :=
  s.testrun.all (fun t => t.result_id < 6)

/-- Every baseline row's baserepo_id resolves to a baserepo row. -/
def baselineReposResolved (s : SktDbState) : Bool :=
  s.baseline.all (fun b => s.baserepo.any (fun r => r.id == b.baserepo_id))

/-- At most one pendingpatches row per patch id: the UNIQUE constraint of
db.py line 65. -/
def patch_id_unique (rows : List PendingPatchRow) : Prop :=
  rows.Pairwise (fun a b => a.patch_id ≠ b.patch_id)

/-- Equality of Except values is decidable when it is for both components;
used to evaluate the model at concrete inputs. -/
instance {ε α : Type} [DecidableEq ε] [DecidableEq α] : DecidableEq (Except ε α) := fun x y =>
  match x, y with
  | .ok a, .ok b => if h : a = b then .isTrue (by simp [h]) else .isFalse (by simp [h])
  | .error a, .error b => if h : a = b then .isTrue (by simp [h]) else .isFalse (by simp [h])
  | .ok _, .error _ => .isFalse (by simp)
  | .error _, .ok _ => .isFalse (by simp)

/-- Fixture: one repo whose commit "c" has a MERGE_FAILURE baseline. -/
def dbStored : SktDbState :=
  { baserepo := [⟨1, "r"⟩], patchsource := [], patch := [],
    pendingpatches := [], pendingjobs := [],
    testrun := [⟨1, 1, 7⟩], baseline := [⟨1, 1, "c", 10, 1⟩] }

/-- Fixture: commit "c1" (date 10) SUCCESS, commit "c2" (date 20)
BUILD_FAILURE, both for the one repo. -/
def dbTwoCommits : SktDbState :=
  { baserepo := [⟨1, "r"⟩], patchsource := [], patch := [],
    pendingpatches := [], pendingjobs := [],
    testrun := [⟨1, 0, 7⟩, ⟨2, 2, 8⟩],
    baseline := [⟨1, 1, "c1", 10, 1⟩, ⟨2, 1, "c2", 20, 2⟩] }

/-- Fixture: a store with two pending baseline jobs and no pending patches. -/
def dbTwoJobs : SktDbState :=
  { baserepo := [], patchsource := [], patch := [],
    pendingpatches := [], pendingjobs := [⟨1, "j", 1⟩, ⟨2, "j", 2⟩],
    testrun := [], baseline := [] }

/-- Fixture: one pending patchwork job (id 1) with one associated pending
patch (patch id 101). -/
def dbPatchJob : SktDbState :=
  { baserepo := [], patchsource := [], patch := [],
    pendingpatches := [⟨7, 101, 0, some 1⟩], pendingjobs := [⟨1, "j", 5⟩],
    testrun := [], baseline := [] }

/-- Fixture: a store that knows repo "a" only. -/
def dbOneRepo : SktDbState :=
  { baserepo := [⟨1, "a"⟩], patchsource := [], patch := [],
    pendingpatches := [], pendingjobs := [],
    testrun := [⟨1, 0, 9⟩], baseline := [⟨1, 1, "c", 5, 1⟩] }

/-- Fixture: an executor that reports every build complete and successful. -/
def jkAllDone : Executor :=
  { is_build_complete := fun _ _ => true
  , get_build_status := fun _ _ => "SUCCESS"
  , get_result := fun _ _ => .SUCCESS
  , get_base_hash := fun _ _ => "h"
  , get_base_commitdate := fun _ _ => 100 }

theorem le_foldl_max (l : List Nat) : ∀ a : Nat, a ≤ l.foldl max a := by
  induction l with
  | nil => intro a; exact le_rfl
  | cons y ys ih => intro a; exact le_trans (le_max_left a y) (ih (max a y))

theorem foldl_max_le_of_mem {l : List Nat} {x : Nat} (h : x ∈ l) :
    ∀ a : Nat, x ≤ l.foldl max a := by
  induction l with
  | nil => cases h
  | cons y ys ih =>
    intro a
    rcases List.mem_cons.mp h with rfl | hx
    · exact le_trans (le_max_right a x) (le_foldl_max ys (max a x))
    · exact ih hx (max a y)

theorem maxId_ge_of_mem {ids : List Nat} {x : Nat} (h : x ∈ ids) : x ≤ maxId ids :=
  foldl_max_le_of_mem h 0


theorem selStep_characterize {α : Type} (f : α → Int) (a x : α) :
    (f x > f a → selStep f (some a) x = some x)
    ∧ (¬ f x > f a → selStep f (some a) x = some a) := by
  constructor
  · intro hc; simp [selStep, if_pos hc]
  · intro hc; simp [selStep, if_neg hc]

theorem selStep_some {α : Type} (f : α → Int) (x : α) (acc : Option α) :
    ∃ b, selStep f acc x = some b ∧ f x ≤ f b ∧ (b = x ∨ acc = some b) := by
  match acc with
  | none => exact ⟨x, rfl, le_rfl, Or.inl rfl⟩
  | some c =>
    by_cases hc : f x > f c
    · exact ⟨x, (selStep_characterize f c x).1 hc, le_rfl, Or.inl rfl⟩
    · exact ⟨c, (selStep_characterize f c x).2 hc, le_of_not_lt hc, Or.inr rfl⟩

theorem selectMaxBy_go {α : Type} (f : α → Int) (l : List α) :
    ∀ (acc : Option α) (m : α), l.foldl (selStep f) acc = some m →
      (m ∈ l ∨ acc = some m) ∧ (∀ r ∈ l, f r ≤ f m) ∧
        (∀ a, acc = some a → f a ≤ f m) := by
  induction l with
  | nil =>
    intro acc m h
    simp only [List.foldl_nil] at h
    refine ⟨Or.inr h, by simp, fun a ha => ?_⟩
    rw [h] at ha
    cases ha
    exact le_rfl
  | cons x xs ih =>
    intro acc m h
    simp only [List.foldl_cons] at h
    obtain ⟨hmem, hmax, hacc⟩ := ih (selStep f acc x) m h
    obtain ⟨b, hb, hxb, hbor⟩ := selStep_some f x acc
    have hbm : f b ≤ f m := hacc b hb
    refine ⟨?_, ?_, ?_⟩
    · rcases hmem with hm | hm
      · exact Or.inl (List.mem_cons_of_mem x hm)
      · have hbm' : b = m := by rw [hb] at hm; exact Option.some.inj hm
        rcases hbor with hbx | hacc'
        · exact Or.inl (by rw [← hbm', hbx]; exact List.mem_cons_self x xs)
        · exact Or.inr (by rw [← hbm']; exact hacc')
    · intro r hr
      rcases List.mem_cons.mp hr with hrx | hr'
      · subst hrx; exact le_trans hxb hbm
      · exact hmax r hr'
    · intro a ha
      subst ha
      by_cases hc : f x > f a
      · have hb' := (selStep_characterize f a x).1 hc
        rw [hb'] at hb
        cases hb
        exact le_trans (le_of_lt hc) hbm
      · have hb' := (selStep_characterize f a x).2 hc
        rw [hb'] at hb
        cases hb
        exact hbm

theorem selectMaxBy_spec {α : Type} (f : α → Int) {l : List α} {m : α}
    (h : selectMaxBy f l = some m) : m ∈ l ∧ ∀ r ∈ l, f r ≤ f m := by
  obtain ⟨hmem, hmax, _⟩ := selectMaxBy_go f l none m h
  refine ⟨?_, hmax⟩
  rcases hmem with hm | hm
  · exact hm
  · cases hm

theorem get_repoid_found (s : SktDbState) (url : String) (r : BaserepoRow)
    (h : s.baserepo.find? (fun x => x.url == url) = some r) :
    get_repoid s url = (r.id, s) := by
  simp [get_repoid, h]

theorem get_repoid_frame (s : SktDbState) (url : String) :
    (get_repoid s url).2.patchsource = s.patchsource
    ∧ (get_repoid s url).2.patch = s.patch
    ∧ (get_repoid s url).2.pendingpatches = s.pendingpatches
    ∧ (get_repoid s url).2.pendingjobs = s.pendingjobs
    ∧ (get_repoid s url).2.testrun = s.testrun
    ∧ (get_repoid s url).2.baseline = s.baseline := by
  unfold get_repoid create_repoid
  cases s.baserepo.find? (fun x => x.url == url) <;> simp

theorem get_repoid_finds (s : SktDbState) (url : String) :
    ∃ r : BaserepoRow,
      (get_repoid s url).2.baserepo.find? (fun x => x.url == url) = some r
        ∧ r.id = (get_repoid s url).1 := by
  unfold get_repoid create_repoid
  cases hf : s.baserepo.find? (fun x => x.url == url) with
  | some r => exact ⟨r, by simp [hf], rfl⟩
  | none =>
    refine ⟨⟨freshBaserepoId s, url⟩, ?_, rfl⟩
    simp only [List.find?_append, hf, Option.none_or]
    simp [List.find?]

theorem baseline_result_rows_append (bl : List BaselineRow)
    (tr : List TestrunRow) (row : TestrunRow) (rid : Nat) (hash : String)
    (h : ∀ b ∈ bl, (tr.find? (fun t => t.id == b.testrun_id)).isSome = true) :
    baseline_result_rows bl (tr ++ [row]) rid hash
      = baseline_result_rows bl tr rid hash := by
  induction bl with
  | nil => rfl
  | cons b bs ih =>
    have hb := h b (List.mem_cons_self b bs)
    have hbs : ∀ x ∈ bs, (tr.find? (fun t => t.id == x.testrun_id)).isSome = true :=
      fun x hx => h x (List.mem_cons_of_mem b hx)
    obtain ⟨t, ht⟩ := Option.isSome_iff_exists.mp hb
    simp only [baseline_result_rows, List.filterMap_cons] at *
    rw [List.find?_append, ht]
    by_cases hc : (b.commitid == hash && b.baserepo_id == rid) = true
    · have hor : (some t).or (List.find? (fun t => t.id == b.testrun_id) [row]) = some t := rfl
      simp only [if_pos hc, hor]
      rw [ih hbs]
    · simp only [if_neg hc]
      exact ih hbs

theorem baselineResolved_spec {s : SktDbState} (hres : baselineResolved s = true) :
    ∀ b ∈ s.baseline, (s.testrun.find? (fun t => t.id == b.testrun_id)).isSome = true := by
  intro b hb
  exact List.all_eq_true.mp hres b hb

theorem get_baselineresult_after_commit (s : SktDbState) (repo hash : String)
    (res : Tresult) (bid : Nat) (hres : baselineResolved s = true) :
    get_baselineresult (commit_testrun (get_repoid s repo).2 res bid).2 repo hash
      = ((get_baselineresult s repo hash).1,
         (commit_testrun (get_repoid s repo).2 res bid).2) := by
  obtain ⟨r, hfind, hrid⟩ := get_repoid_finds s repo
  have hfr := get_repoid_frame s repo
  have hrepo2 : get_repoid (commit_testrun (get_repoid s repo).2 res bid).2 repo
      = ((get_repoid s repo).1, (commit_testrun (get_repoid s repo).2 res bid).2) := by
    rw [← hrid]
    exact get_repoid_found _ repo r hfind
  have hrows : baseline_result_rows
        (commit_testrun (get_repoid s repo).2 res bid).2.baseline
        (commit_testrun (get_repoid s repo).2 res bid).2.testrun
        (get_repoid s repo).1 hash
      = baseline_result_rows (get_repoid s repo).2.baseline
          (get_repoid s repo).2.testrun (get_repoid s repo).1 hash := by
    show baseline_result_rows (get_repoid s repo).2.baseline
        ((get_repoid s repo).2.testrun ++ [⟨freshTestrunId (get_repoid s repo).2, res.val, bid⟩])
        (get_repoid s repo).1 hash = _
    apply baseline_result_rows_append
    intro b hb
    have hb' : b ∈ s.baseline := by rw [← hfr.2.2.2.2.2]; exact hb
    have hsome := baselineResolved_spec hres b hb'
    rw [hfr.2.2.2.2.1]
    exact hsome
  simp only [get_baselineresult, hrepo2, hrows]

theorem update_baseline_eq (s : SktDbState) (repo hash : String) (date : Int)
    (res : Tresult) (bid : Nat) (hres : baselineResolved s = true) :
    update_baseline s repo hash date res bid =
      (match (get_baselineresult s repo hash).1 with
       | .error e => .error e
       | .ok none =>
         .ok { (commit_testrun (get_repoid s repo).2 res bid).2 with
               baseline := s.baseline ++
                 [⟨freshBaselineId s, (get_repoid s repo).1, hash, date,
                   freshTestrunId s⟩] }
       | .ok (some p) =>
         if p.val ≤ res.val then
           .ok { (commit_testrun (get_repoid s repo).2 res bid).2 with
                 baseline := s.baseline.map (fun b =>
                   if b.commitid == hash && b.baserepo_id == (get_repoid s repo).1 then
                     { b with testrun_id := freshTestrunId s }
                   else b) }
         else .ok (commit_testrun (get_repoid s repo).2 res bid).2) := by
  have hfr := get_repoid_frame s repo
  have hcrux := get_baselineresult_after_commit s repo hash res bid hres
  have hfresh : freshTestrunId (get_repoid s repo).2 = freshTestrunId s := by
    simp [freshTestrunId, hfr.2.2.2.2.1]
  have hblid : freshBaselineId (commit_testrun (get_repoid s repo).2 res bid).2
      = freshBaselineId s := by
    show freshBaselineId { (get_repoid s repo).2 with
      testrun := (get_repoid s repo).2.testrun ++
        [⟨freshTestrunId (get_repoid s repo).2, res.val, bid⟩] } = freshBaselineId s
    simp [freshBaselineId, hfr.2.2.2.2.2]
  have hbl2 : (commit_testrun (get_repoid s repo).2 res bid).2.baseline = s.baseline := by
    show ({ (get_repoid s repo).2 with
      testrun := (get_repoid s repo).2.testrun ++
        [⟨freshTestrunId (get_repoid s repo).2, res.val, bid⟩] } : SktDbState).baseline = s.baseline
    simp [hfr.2.2.2.2.2]
  have htid : (commit_testrun (get_repoid s repo).2 res bid).1 = freshTestrunId s := by
    simp [commit_testrun, hfresh]
  simp only [update_baseline, hcrux, htid, hblid, hbl2]

theorem commit_after_repoid_baseline (s : SktDbState) (repo : String)
    (res : Tresult) (bid : Nat) :
    (commit_testrun (get_repoid s repo).2 res bid).2.baseline = s.baseline :=
  (get_repoid_frame s repo).2.2.2.2.2

theorem commit_after_repoid_testrun (s : SktDbState) (repo : String)
    (res : Tresult) (bid : Nat) :
    (commit_testrun (get_repoid s repo).2 res bid).2.testrun
      = s.testrun ++ [⟨freshTestrunId s, res.val, bid⟩] := by
  have h := (get_repoid_frame s repo).2.2.2.2.1
  show (get_repoid s repo).2.testrun
      ++ [⟨freshTestrunId (get_repoid s repo).2, res.val, bid⟩] = _
  rw [h]
  have : freshTestrunId (get_repoid s repo).2 = freshTestrunId s := by
    simp [freshTestrunId, h]
  rw [this]

theorem Tresult.ofNat?_lt_6 {n : Nat} (h : n < 6) :
    ∃ t, Tresult.ofNat? n = some t := by
  interval_cases n <;> exact ⟨_, rfl⟩

theorem baseline_result_rows_result_mem {bl : List BaselineRow}
    {tr : List TestrunRow} {rid : Nat} {hash : String} {m : Int × Nat}
    (h : m ∈ baseline_result_rows bl tr rid hash) :
    ∃ t ∈ tr, m.2 = t.result_id := by
  simp only [baseline_result_rows, List.mem_filterMap] at h
  obtain ⟨b, _, hf⟩ := h
  by_cases hc : (b.commitid == hash && b.baserepo_id == rid) = true
  · rw [if_pos hc] at hf
    obtain ⟨t, ht, hmt⟩ := Option.map_eq_some'.mp hf
    exact ⟨t, List.mem_of_find?_eq_some ht, by rw [← hmt]⟩
  · rw [if_neg hc] at hf
    cases hf

theorem get_baselineresult_no_error (s : SktDbState) (repo hash : String)
    (hval : resultsValid s = true) :
    ∀ e, (get_baselineresult s repo hash).1 ≠ .error e := by
  intro e he
  simp only [get_baselineresult, baselineresult_value] at he
  split at he
  · cases he
  · split at he
    · rename_i m hsel tt hnone
      obtain ⟨hmem, _⟩ := selectMaxBy_spec _ hsel
      obtain ⟨t, htmem, hm2⟩ := baseline_result_rows_result_mem hmem
      have htmem' : t ∈ s.testrun := by
        rw [← (get_repoid_frame s repo).2.2.2.2.1]
        exact htmem
      have hlt : t.result_id < 6 :=
        of_decide_eq_true (List.all_eq_true.mp hval t htmem')
      obtain ⟨u, hu⟩ := Tresult.ofNat?_lt_6 (hm2 ▸ hlt)
      rw [hu] at hnone
      cases hnone
    · cases he

/-- Claim C1: update_baseline creates a baseline row for the (repo, commit)
pair when none exists; when a previous result exists it updates the row's
linked test run only if the new result's ordinal is greater than or equal
to the stored one under the severity ordering (SUCCESS lowest); a call with
a strictly lower ordinal leaves the baseline table unchanged. -/
theorem update_baseline_ordering_gate
    (s : SktDbState) (repo hash : String) (date : Int) (res : Tresult)
    (bid : Nat) (hres : baselineResolved s = true) :
    ((get_baselineresult s repo hash).1 = .ok none →
      ∃ s', update_baseline s repo hash date res bid = .ok s' ∧
        s'.baseline = s.baseline ++
          [⟨freshBaselineId s, (get_repoid s repo).1, hash, date,
            freshTestrunId s⟩])
    ∧ (∀ p : Tresult, (get_baselineresult s repo hash).1 = .ok (some p) →
        (p.val ≤ res.val →
          ∃ s', update_baseline s repo hash date res bid = .ok s' ∧
            s'.baseline = s.baseline.map (fun b =>
              if b.commitid == hash && b.baserepo_id == (get_repoid s repo).1 then
                { b with testrun_id := freshTestrunId s }
              else b))
        ∧ (res.val < p.val →
          ∃ s', update_baseline s repo hash date res bid = .ok s' ∧
            s'.baseline = s.baseline)) := by
  rw [update_baseline_eq s repo hash date res bid hres]
  refine ⟨?_, ?_⟩
  · intro h
    simp only [h]
    exact ⟨_, rfl, rfl⟩
  · intro p hp
    simp only [hp]
    constructor
    · intro hle
      rw [if_pos hle]
      exact ⟨_, rfl, rfl⟩
    · intro hlt
      rw [if_neg (not_le.mpr hlt)]
      exact ⟨_, rfl, commit_after_repoid_baseline s repo res bid⟩

/-- Witness for C1 at a concrete store: commit "c" has a stored
MERGE_FAILURE; a SUCCESS rerun (strictly lower ordinal) is rejected and the
baseline table is left as it was. -/
theorem update_baseline_ordering_gate_witness :
    baselineResolved dbStored = true
      ∧ ∃ s', update_baseline dbStored "r" "c" 10 Tresult.SUCCESS 8 = .ok s'
          ∧ s'.baseline = dbStored.baseline :=
  ⟨by decide,
    ((update_baseline_ordering_gate dbStored "r" "c" 10 .SUCCESS 8
      (by decide)).2 Tresult.MERGE_FAILURE (by decide)).2 (by decide)⟩

/-- Claim C9: every successful update_baseline call appends exactly one
testrun row, even when the severity-ordering gate rejects the
baseline write (new result strictly better than the stored one); in that
rejected case the baseline table is unchanged while the testrun table still
grows by one row. -/
theorem update_baseline_always_inserts_testrun
    (s : SktDbState) (repo hash : String) (date : Int) (res : Tresult)
    (bid : Nat) (hres : baselineResolved s = true)
    (hval : resultsValid s = true) :
    ∃ s', update_baseline s repo hash date res bid = .ok s' ∧
      s'.testrun = s.testrun ++ [⟨freshTestrunId s, res.val, bid⟩] ∧
      (∀ p : Tresult, (get_baselineresult s repo hash).1 = .ok (some p) →
        res.val < p.val → s'.baseline = s.baseline) := by
  rw [update_baseline_eq s repo hash date res bid hres]
  rcases hr : (get_baselineresult s repo hash).1 with e | o
  · exact absurd hr (get_baselineresult_no_error s repo hash hval e)
  · cases o with
    | none =>
      simp only []
      refine ⟨_, rfl, commit_after_repoid_testrun s repo res bid, ?_⟩
      intro p hp
      simp at hp
    | some p =>
      simp only []
      by_cases hle : p.val ≤ res.val
      · rw [if_pos hle]
        refine ⟨_, rfl, commit_after_repoid_testrun s repo res bid, ?_⟩
        intro p' hp' hlt
        have hpp : p = p' := Option.some.inj (Except.ok.inj hp')
        subst hpp
        exact absurd hle (not_le.mpr hlt)
      · rw [if_neg hle]
        exact ⟨_, rfl, commit_after_repoid_testrun s repo res bid,
          fun _ _ _ => commit_after_repoid_baseline s repo res bid⟩

/-- Witness for C9 at a concrete store: the stored result for commit "c" is
MERGE_FAILURE and the rerun reports SUCCESS, so the baseline write is
rejected, yet the testrun table gains the new row. -/
theorem update_baseline_always_inserts_testrun_witness :
    baselineResolved dbStored = true ∧ resultsValid dbStored = true
      ∧ ∃ s', update_baseline dbStored "r" "c" 10 Tresult.SUCCESS 8 = .ok s'
          ∧ s'.testrun = dbStored.testrun ++ [⟨2, 0, 8⟩]
          ∧ (∀ p : Tresult,
              (get_baselineresult dbStored "r" "c").1 = .ok (some p) →
              Tresult.val .SUCCESS < p.val → s'.baseline = dbStored.baseline) :=
  ⟨by decide, by decide,
    update_baseline_always_inserts_testrun dbStored "r" "c" 10 .SUCCESS 8
      (by decide) (by decide)⟩

/-- Claim C2: with baseline rows for commit c1 (date d1, linked test run
SUCCESS) and commit c2 (date d2 > d1, linked run non-SUCCESS), get_stable
returns c1, not c2; in general the commit it returns comes from a
success-joined row of maximal commit date, ignoring all non-SUCCESS rows. -/
theorem get_stable_latest_success
    (s : SktDbState) (repo : String) (rr : BaserepoRow)
    (hfind : s.baserepo.find? (fun r => r.url == repo) = some rr)
    (c1 c2 : String) (d1 d2 : Int) (i1 i2 t1 t2 r2 bld1 bld2 : Nat)
    (hbl : s.baseline = [⟨i1, rr.id, c1, d1, t1⟩, ⟨i2, rr.id, c2, d2, t2⟩])
    (htr : s.testrun = [⟨t1, 0, bld1⟩, ⟨t2, r2, bld2⟩])
    (hne : t1 ≠ t2) (hr2 : r2 ≠ 0) (hd : d1 < d2) :
    (get_stable s repo).1 = some c1
    ∧ ∀ (s' : SktDbState) (repo' c : String),
        (get_stable s' repo').1 = some c →
        ∃ row ∈ stable_rows s'.baseline s'.testrun (get_repoid s' repo').1,
          row.2 = c ∧
            ∀ r ∈ stable_rows s'.baseline s'.testrun (get_repoid s' repo').1,
              r.1 ≤ row.1 := by
  constructor
  · have ht12 : (t1 == t2) = false := beq_eq_false_iff_ne.mpr hne
    have hr20 : (r2 == 0) = false := beq_eq_false_iff_ne.mpr hr2
    rw [get_stable, get_repoid_found s repo rr hfind]
    simp [stable_rows, hbl, htr, ht12, hr20, hr2, selectMaxBy, selStep]
  · intro s' repo' c hc
    simp only [get_stable] at hc
    obtain ⟨row, hrow, hrow2⟩ := Option.map_eq_some'.mp hc
    obtain ⟨hmem, hmax⟩ := selectMaxBy_spec _ hrow
    have hfr := get_repoid_frame s' repo'
    rw [hfr.2.2.2.2.2, hfr.2.2.2.2.1] at hmem hmax
    exact ⟨row, hmem, hrow2, hmax⟩

/-- Witness for C2 at a concrete store: commit "c1" (date 10, SUCCESS) and
commit "c2" (date 20, BUILD_FAILURE); the stable commit is "c1". -/
theorem get_stable_latest_success_witness :
    dbTwoCommits.baserepo.find? (fun r => r.url == "r") = some ⟨1, "r"⟩
      ∧ (get_stable dbTwoCommits "r").1 = some "c1" :=
  ⟨by decide,
    (get_stable_latest_success dbTwoCommits "r" ⟨1, "r"⟩ (by decide)
      "c1" "c2" 10 20 1 2 1 2 2 7 8 (by decide) (by decide)
      (by decide) (by decide) (by decide)).1⟩

theorem stable_rows_of_no_repo (bl : List BaselineRow) (tr : List TestrunRow)
    (rid : Nat) (h : ∀ b ∈ bl, b.baserepo_id ≠ rid) :
    stable_rows bl tr rid = [] := by
  rw [stable_rows, List.filterMap_eq_nil_iff]
  intro b hb
  have hbeq : (b.baserepo_id == rid) = false := beq_eq_false_iff_ne.mpr (h b hb)
  simp [hbeq]

theorem freshBaserepoId_not_referenced (s : SktDbState)
    (hrr : baselineReposResolved s = true) :
    ∀ b ∈ s.baseline, b.baserepo_id ≠ freshBaserepoId s := by
  intro b hb heq
  obtain ⟨r, hrmem, hr⟩ :=
    List.any_eq_true.mp (List.all_eq_true.mp hrr b hb)
  have hre : r.id = b.baserepo_id := beq_iff_eq.mp hr
  have hle : r.id ≤ maxId (s.baserepo.map (·.id)) :=
    maxId_ge_of_mem (List.mem_map_of_mem _ hrmem)
  rw [hre, heq] at hle
  simp [freshBaserepoId] at hle

/-- Claim C10: get_stable on an unknown repo URL is not read-only: it
inserts a baserepo row for the URL (lazy creation through __get_repoid) and
returns None; a second call finds the same repo id again without inserting
another row, and also returns None. -/
theorem get_stable_creates_baserepo_row
    (s : SktDbState) (url : String)
    (habs : s.baserepo.find? (fun r => r.url == url) = none)
    (hrr : baselineReposResolved s = true) :
    get_stable s url =
      (none, { s with baserepo := s.baserepo ++ [⟨freshBaserepoId s, url⟩] })
    ∧ get_stable (get_stable s url).2 url = (none, (get_stable s url).2)
    ∧ get_repoid (get_stable s url).2 url
        = (freshBaserepoId s, (get_stable s url).2) := by
  have hempty : stable_rows s.baseline s.testrun (freshBaserepoId s) = [] :=
    stable_rows_of_no_repo _ _ _ (freshBaserepoId_not_referenced s hrr)
  have hrid : get_repoid s url =
      (freshBaserepoId s,
        { s with baserepo := s.baserepo ++ [⟨freshBaserepoId s, url⟩] }) := by
    simp [get_repoid, habs, create_repoid]
  have hfind2 : ({ s with baserepo := s.baserepo ++ [⟨freshBaserepoId s, url⟩] }
        : SktDbState).baserepo.find? (fun r => r.url == url)
      = some ⟨freshBaserepoId s, url⟩ := by
    show List.find? (fun r : BaserepoRow => r.url == url)
        (s.baserepo ++ [⟨freshBaserepoId s, url⟩]) = _
    rw [List.find?_append, habs]
    simp [List.find?]
  have h1 : get_stable s url =
      (none, { s with baserepo := s.baserepo ++ [⟨freshBaserepoId s, url⟩] }) := by
    simp only [get_stable, hrid]
    rw [hempty]
    rfl
  refine ⟨h1, ?_, ?_⟩
  · rw [h1]
    have hrid2 := get_repoid_found _ url _ hfind2
    simp only [get_stable, hrid2]
    rw [show ({ s with baserepo := s.baserepo ++ [⟨freshBaserepoId s, url⟩] }
        : SktDbState).baseline = s.baseline from rfl,
      show ({ s with baserepo := s.baserepo ++ [⟨freshBaserepoId s, url⟩] }
        : SktDbState).testrun = s.testrun from rfl, hempty]
    rfl
  · rw [h1]
    exact get_repoid_found _ url _ hfind2

/-- Witness for C10 at a concrete store: repo URL "b" is unknown to
dbOneRepo, gets baserepo id 2 created as a side effect, and both calls
return None. -/
theorem get_stable_creates_baserepo_row_witness :
    dbOneRepo.baserepo.find? (fun r => r.url == "b") = none
      ∧ baselineReposResolved dbOneRepo = true
      ∧ get_stable dbOneRepo "b" =
          (none, { dbOneRepo with baserepo := dbOneRepo.baserepo ++ [⟨2, "b"⟩] })
      ∧ get_repoid (get_stable dbOneRepo "b").2 "b"
          = (2, (get_stable dbOneRepo "b").2) :=
  ⟨by decide, by decide,
    (get_stable_creates_baserepo_row dbOneRepo "b" (by decide) (by decide)).1,
    (get_stable_creates_baserepo_row dbOneRepo "b" (by decide) (by decide)).2.2⟩

/-- Claim C4 (code bug): every call to get_expired_pending_patches fails
with sqlite3.OperationalError, because the query's WHERE clause references
pendingpatches.patchsource_id (db.py lines 315-318), a column the
pendingpatches table created by __createdb (db.py lines 63-70) does not
have.  No list of ids — let alone patch ids — is ever returned, although
the docstring promises a list of patch IDs. -/
theorem get_expired_pending_patches_errors
    (s : SktDbState) (baseurl : String) (project_id : Nat)
    (now exptime : Int) :
    (get_expired_pending_patches s baseurl project_id now exptime).1
      = .error .operationalError := rfl

/-- Claim C7 (code bug): set_patchset_pending raises NameError on every
call (its body reads `baseurl` and `project_id`, which are not in its
scope), so it never creates or moves a pending association; the INSERT OR
REPLACE statement its loop body was meant to run would have kept the
pending-exclusivity invariant: after it, exactly one pendingpatches row
carries the patch id, and pairwise distinctness of patch ids is
preserved. -/
theorem set_patchset_pending_raises :
    (∀ (s : SktDbState) (series_data : List (Nat × String)),
      set_patchset_pending s series_data = .error .nameError)
    ∧ (∀ (s : SktDbState) (pid : Nat) (ts : Int),
        ((pendingpatches_insert_or_replace s pid ts).pendingpatches.filter
          (fun p => p.patch_id == pid)).length = 1)
    ∧ (∀ (s : SktDbState) (pid : Nat) (ts : Int),
        patch_id_unique s.pendingpatches →
        patch_id_unique (pendingpatches_insert_or_replace s pid ts).pendingpatches) := by
  refine ⟨fun _ _ => rfl, ?_, ?_⟩
  · intro s pid ts
    simp only [pendingpatches_insert_or_replace, List.filter_append]
    rw [List.filter_filter]
    have h1 : (s.pendingpatches.filter
        (fun p => (p.patch_id == pid) && (p.patch_id != pid))) = [] := by
      rw [List.filter_eq_nil_iff]
      intro p _
      by_cases hp : p.patch_id = pid <;> simp [hp]
    rw [h1]
    simp
  · intro s pid ts hu
    simp only [pendingpatches_insert_or_replace]
    rw [patch_id_unique, List.pairwise_append]
    refine ⟨hu.sublist (List.filter_sublist _), by simp [patch_id_unique], ?_⟩
    intro a ha b hb
    have hane : (a.patch_id != pid) = true := (List.mem_filter.mp ha).2
    have hb1 : b = ⟨maxId ((s.pendingpatches.filter
        (fun p => p.patch_id != pid)).map (·.id)) + 1, pid, ts, none⟩ := by
      simpa using hb
    rw [hb1]
    simpa using hane

/-- Claim C8 (code bug): the while loop of Direct.__update never changes
its guard variable — after any number of iterations the capacity computed
before the loop is intact, so once it is positive the guard stays true and
the fill-up never terminates; moreover a single pass of the body starts
every non-complete run, with no FIFO selection and no capacity bound, so
nothing enforces that exactly min(limit, queued+running) runs are
running. -/
theorem direct_update_fill_never_terminates
    (parallel_run_num : Int) (run_map : List DirectRun) (n : Nat) :
    (update_fill_iter n
        (update_capacity parallel_run_num run_map, run_map)).1
      = update_capacity parallel_run_num run_map
    ∧ (0 < update_capacity parallel_run_num run_map →
        0 < (update_fill_iter n
          (update_capacity parallel_run_num run_map, run_map)).1)
    ∧ (∀ r ∈ update_fill_body run_map,
        r.is_complete = false → r.started = true) := by
  have hfst : ∀ (k : Nat) (c : Int) (runs : List DirectRun),
      (update_fill_iter k (c, runs)).1 = c := by
    intro k
    induction k with
    | zero => intro c runs; rfl
    | succ k ih => intro c runs; exact ih c (update_fill_body runs)
  refine ⟨hfst n _ run_map, ?_, ?_⟩
  · intro hpos
    rw [hfst n _ run_map]
    exact hpos
  · intro r hr hc
    simp only [update_fill_body, List.mem_map] at hr
    obtain ⟨a, _, ha⟩ := hr
    by_cases hac : a.is_complete
    · rw [if_pos hac] at ha
      rw [← ha] at hc
      exact absurd hac (by rw [hc]; exact Bool.false_ne_true)
    · rw [if_neg hac] at ha
      rw [← ha]

/-- Claim C6: filter_patchsets classifies a series by the filter's exit
status: the call succeeds exactly when every status is 0 or 1, and then the
ready list holds the status-0 series and the dropped list the status-1
series in order; any series with status 127, a negative status (signal
termination) or any other status makes the call raise, so no series is
classified under any other exit code. -/
theorem filter_patchsets_exit_codes {α : Type} (run : α → Int) (l : List α) :
    ((∀ x ∈ l, run x = 0 ∨ run x = 1) →
      filter_patchsets run l =
        .ok (l.filter (fun x => run x == 0), l.filter (fun x => run x == 1)))
    ∧ ((∃ p, filter_patchsets run l = .ok p) ↔ ∀ x ∈ l, run x = 0 ∨ run x = 1)
    ∧ (∀ (x : α) (rest : List α), run x ≠ 0 → run x ≠ 1 →
        filter_patchsets run (x :: rest) =
          .error (if run x = 127 then .commandFailed
                  else if run x < 0 then .terminatedBySignal (-(run x))
                  else .invalidStatus (run x))) := by
  have herr : ∀ (x : α) (rest : List α), run x ≠ 0 → run x ≠ 1 →
      filter_patchsets run (x :: rest) =
        .error (if run x = 127 then .commandFailed
                else if run x < 0 then .terminatedBySignal (-(run x))
                else .invalidStatus (run x)) := by
    intro x rest h0 h1
    rw [filter_patchsets, if_neg h0, if_neg h1]
    by_cases h127 : run x = 127
    · rw [if_pos h127, if_pos h127]
    · rw [if_neg h127, if_neg h127]
      by_cases hneg : run x < 0
      · rw [if_pos hneg, if_pos hneg]
      · rw [if_neg hneg, if_neg hneg]
  have hok : ∀ l : List α, (∀ x ∈ l, run x = 0 ∨ run x = 1) →
      filter_patchsets run l =
        .ok (l.filter (fun x => run x == 0), l.filter (fun x => run x == 1)) := by
    intro l
    induction l with
    | nil => intro _; rfl
    | cons x xs ih =>
      intro h
      have hx := h x (List.mem_cons_self x xs)
      have hxs := ih (fun y hy => h y (List.mem_cons_of_mem x hy))
      rcases hx with hx0 | hx1
      · rw [filter_patchsets, if_pos hx0, hxs]
        have : (run x == 0) = true := beq_iff_eq.mpr hx0
        have h1f : (run x == 1) = false := by
          rw [hx0]; decide
        simp [List.filter_cons, this, h1f, Except.map]
      · have hne0 : run x ≠ 0 := by rw [hx1]; decide
        rw [filter_patchsets, if_neg hne0, if_pos hx1, hxs]
        have : (run x == 1) = true := beq_iff_eq.mpr hx1
        have h0f : (run x == 0) = false := by
          rw [hx1]; decide
        simp [List.filter_cons, this, h0f, Except.map]
  have hcomp : ∀ (l : List α) (p : List α × List α),
      filter_patchsets run l = .ok p → ∀ x ∈ l, run x = 0 ∨ run x = 1 := by
    intro l
    induction l with
    | nil => intro p _ x hx; cases hx
    | cons x xs ih =>
      intro p hp y hy
      by_cases h0 : run x = 0
      · rcases List.mem_cons.mp hy with hyx | hyxs
        · rw [hyx]; exact Or.inl h0
        · rw [filter_patchsets, if_pos h0] at hp
          rcases hfp : filter_patchsets run xs with e | q
          · rw [hfp] at hp; simp [Except.map] at hp
          · exact ih q hfp y hyxs
      · by_cases h1 : run x = 1
        · rcases List.mem_cons.mp hy with hyx | hyxs
          · rw [hyx]; exact Or.inr h1
          · rw [filter_patchsets, if_neg h0, if_pos h1] at hp
            rcases hfp : filter_patchsets run xs with e | q
            · rw [hfp] at hp; simp [Except.map] at hp
            · exact ih q hfp y hyxs
        · rw [herr x xs h0 h1] at hp
          cases hp
  exact ⟨hok l, ⟨fun hex => hcomp l hex.choose hex.choose_spec,
    fun h => ⟨_, hok l h⟩⟩, herr⟩

theorem check_pending_loop_trace (jk : Executor) (baserepo : String) :
    ∀ (jobs : List PendingJobRow) (s : SktDbState),
      (check_pending_loop jk baserepo s jobs).1 = reconcile_trace jk jobs := by
  intro jobs
  induction jobs with
  | nil => intro s; rfl
  | cons j rest ih =>
    intro s
    rw [check_pending_loop, reconcile_trace]
    by_cases hc : jk.is_build_complete j.job_name j.build_id
    · rw [if_pos hc, if_pos hc]
      by_cases ha : jk.get_build_status j.job_name j.build_id = "ABORTED"
      · rw [if_pos ha, if_pos ha]
        by_cases hid : j.id < 10
        · rw [if_pos hid]
          have hrm : remove_pending_job s j.id = .ok { s with
              pendingjobs := s.pendingjobs.filter (fun x => x.id != j.id),
              pendingpatches := s.pendingpatches.filter
                (fun p => p.pendingjob_id != some j.id) } := by
            rw [remove_pending_job, if_pos hid]
          rw [hrm]
          simp [ih]
        · rw [if_neg hid]
          have hrm : remove_pending_job s j.id = .error .programmingError := by
            rw [remove_pending_job, if_neg hid]
          rw [hrm]
      · rw [if_neg ha, if_neg ha]
        cases hg : get_patches_for_job s j.id with
        | error e => rfl
        | ok pending_patches =>
          show ((if pending_patches.isEmpty = true then _ else _ :
            List Nat × Except PyError SktDbState)).1 = [j.id]
          by_cases hp : pending_patches.isEmpty = true
          · rw [if_pos hp]
            split
            · rfl
            · split <;> rfl
          · rw [if_neg hp]
            rfl
    · rw [if_neg hc, if_neg hc]
      simp [ih]

/-- Claim C5 (amended): one check_pending pass examines the stored pending
jobs in listing order, but it ends at the first job the executor reports
complete and not aborted — a baseline job ends it through the early return
after update_baseline and removal, a patchwork job through the NameError
commit_tested raises — and also at any complete aborted job whose id has
two or more decimal digits, where remove_pending_job's str-bound SQL
parameter raises ProgrammingError; only still-running jobs and aborted
jobs with one-digit ids let the pass move on to later jobs. -/
theorem check_pending_examines_until_first_reconciled
    (jk : Executor) (baserepo : String) (s : SktDbState) :
    (check_pending jk baserepo s).1 = reconcile_trace jk s.pendingjobs :=
  check_pending_loop_trace jk baserepo s.pendingjobs s

/-- Counterexample to claim C5 as stated: with two stored pending jobs,
both complete and not aborted, the pass examines only the first job; job 2
is never looked at, because reconciling job 1 (a baseline job) returns from
check_pending (sktm/__init__.py line 390) instead of continuing the loop. -/
theorem check_pending_stops_after_first_baseline_cex :
    (check_pending jkAllDone "r" dbTwoJobs).1 = [1]
    ∧ dbTwoJobs.pendingjobs.map (·.id) = [1, 2] :=
  ⟨by decide, by decide⟩

/-- Claim C3 (code bug, evaluated at the failing input): a completed,
non-aborted job with one associated pending patch makes check_pending raise
NameError out of commit_tested (\_\_unset_patchset_pending reads the
undefined name `patches`); no TestRun row is persisted and neither the
pendingjobs row nor its pendingpatches association is deleted. -/
theorem check_pending_patch_job_name_error :
    check_pending jkAllDone "r" dbPatchJob = ([1], .error .nameError)
    ∧ get_patches_for_job dbPatchJob 1 = .ok [⟨7, 101, 0, some 1⟩] :=
  ⟨by decide, by decide⟩
